import Mathlib

/-!
Shallow embedding of `bytelatent/eval.py` (byte-latent-transformer evaluation
driver) and proofs about its harness adapter, perplexity loop, validation
loop and top-level driver.

Conventions of the embedding:
* Python floats are modelled as `Rat` (exact arithmetic; the claims checked
  here are about data flow and control flow, not rounding).
* External collaborators (the generator's `generate`, the tokenizer's
  `encode`, `find_and_sanitize_chunks`, the Arrow iterators, `dist_mean_dict`,
  `math.exp`, the model forward pass) are parameters of the embedded
  functions, exactly at the call boundary the source uses them.
* Python exceptions are modelled with `Except`; the mutable generator
  configuration is threaded explicitly, so the configuration left behind by
  a raising call is part of each function's result.
-/

namespace BLT

/-- The mutable sampling/generation configuration held by
`PackedCausalTransformerGenerator` that `eval.py` reads and writes:
`max_gen_len`, `temperature`, `top_p`, `top_k`, `until`. -/
structure GenState where
  max_gen_len : Nat
  temperature : Rat
  top_p : Option Rat
  top_k : Option Nat
  untilStrs : List String
deriving DecidableEq

/-- A Python generation-argument dict, as consumed by
`EvalHarnessLM.generate_until` via `gen_args.get(...)`.  Each known key is an
`Option` (absent key = `none`); `rest` stands for any further keys, which
participate in dict equality (`d == first_dict`) but are never read. -/
structure GenDict where
  temperature : Option Rat := none
  top_p : Option Rat := none
  top_k : Option Nat := none
  untilStrs : Option (List String) := none
  rest : List (String × String) := []
deriving DecidableEq

/-- Exceptions that can cross the harness-adapter boundary. -/
inductive PyErr
  /-- `AssertionError` from `assert all_dicts_same(gen_args)` -/
  | assertDifferentGenArgs
  /-- `AssertionError` from `assert len(chunks) == 1` -/
  | assertChunkCount
  /-- `ValueError` from unpacking `zip(*[])` on an empty request list -/
  | valueErrorUnpack
  /-- an arbitrary failure raised inside the external `generator.generate` -/
  | runtimeError
deriving DecidableEq

/-- The type of the external `generator.generate`: reads the generator
configuration, takes the list of prompts, and either returns
`(generations, loglikelihoods, greedys)` or raises. -/
def Gen : Type :=
  GenState → List String →
    Except PyErr (List String × List (List Rat) × List (List Bool))

/-- The type of the external `tokenizer.encode(text, add_bos, add_eos)`. -/
def Encode : Type := String → Bool → Bool → List Nat

/-- `all_dicts_same` from `eval.py`: an empty list counts as all-same,
otherwise every dict is compared with the first. -/
def all_dicts_same (dict_list : List GenDict) : Bool :=
  match dict_list with
  | [] => true
  | first_dict :: _ => dict_list.all (fun d => d == first_dict)

/-- One scan of Python `str.replace(e, "")` over a character list: at each
position, if the pattern `e` is a (non-empty) prefix of the remainder, the
occurrence is dropped and scanning resumes after it; otherwise the character
is kept.  This is exactly Python's left-to-right non-overlapping
replace-by-empty; an empty pattern leaves the string unchanged (as
`s.replace("", "")` does). -/
def pyDropAll (e : List Char) : List Char → List Char
  | [] => []
  | c :: cs =>
    if e.isPrefixOf (c :: cs) && !e.isEmpty then
      pyDropAll e (List.drop e.length (c :: cs))
    else
      c :: pyDropAll e cs
termination_by l => l.length
decreasing_by
  · rename_i hcond
    have he : e ≠ [] := by
      rcases Bool.and_eq_true .. ▸ hcond with ⟨-, h2⟩
      simpa using h2
    have hel : 1 ≤ e.length := by
      cases e with
      | nil => exact absurd rfl he
      | cons a as => simp
    simp only [List.length_drop, List.length_cons]
    omega
  · simp

/-- `g.replace(e, "")` on strings. -/
def pyRemoveAll (g e : String) : String := ⟨pyDropAll e.data g.data⟩

/-- The inner loop `for e in until: g = g.replace(e, "")`. -/
def stripLoop (untilStrs : List String) (g : String) : String :=
  match untilStrs with
  | [] => g
  | e :: rest => stripLoop rest (pyRemoveAll g e)

/-- The outer loop of `generate_until` building `filtered_gen`. -/
def filterGens (untilStrs : List String) : List String → List String
  | [] => []
  | g :: gs => stripLoop untilStrs g :: filterGens untilStrs gs

/-- The generator configuration after `generate_until` copies the shared
generation arguments onto the generator (`self.generator.temperature = ...`
and so on), with the dict-lookup defaults of the source. -/
def sharedState (st : GenState) (ga : GenDict) : GenState :=
  { st with
    temperature := ga.temperature.getD 0
    top_p := ga.top_p
    top_k := ga.top_k
    untilStrs := ga.untilStrs.getD [] }

/-- Result of `generate_until`: the returned value or exception, the
generator configuration afterwards, and the log of `generator.generate`
invocations (configuration seen by the call, prompts passed). -/
structure GenerateUntilResult where
  result : Except PyErr (List String)
  state : GenState
  calls : List (GenState × List String)

namespace EvalHarnessLM

/-- `EvalHarnessLM.generate_until`.  A request is `(prompt, gen_args)`.
On an empty request list, unpacking `zip(*[])` raises `ValueError` before
anything else happens. -/
def generate_until (gen : Gen) (st : GenState)
    (requests : List (String × GenDict)) : GenerateUntilResult :=
  match requests with
  | [] => ⟨.error .valueErrorUnpack, st, []⟩
  | req0 :: rest =>
    let prompts := (req0 :: rest).map Prod.fst
    let gen_args_list := (req0 :: rest).map Prod.snd
    if all_dicts_same gen_args_list then
      let st1 := sharedState st req0.snd
      match gen st1 prompts with
      | .error e => ⟨.error e, st1, [(st1, prompts)]⟩
      | .ok (generations, _, _) =>
        ⟨.ok (filterGens (req0.snd.untilStrs.getD []) generations), st1,
          [(st1, prompts)]⟩
    else
      ⟨.error .assertDifferentGenArgs, st, []⟩

/-- `EvalHarnessLM.loglikelihood`.  A request is `(context, continuation)`.
The generator's `max_gen_len` is saved, overridden to `1`, and written back
by straight-line code after the `generate` call (no `try/finally`), so a
raising `generate` propagates with the override still in place. -/
def loglikelihood (gen : Gen) (encode : Encode) (st : GenState)
    (requests : List (String × String)) :
    Except PyErr (List (Rat × Bool)) × GenState :=
  match requests with
  | [] => (.error .valueErrorUnpack, st)
  | _ :: _ =>
    let prompts := requests.map Prod.fst
    let inputs := requests.map (fun r => r.fst ++ r.snd)
    let max_gen_len := st.max_gen_len
    let st1 := { st with max_gen_len := 1 }
    match gen st1 inputs with
    | .error e => (.error e, st1)
    | .ok (_, lls, greedy) =>
      let results := (prompts.zip (lls.zip greedy)).map (fun pg =>
        let p_len := (encode pg.fst false false).length
        ((pg.snd.fst.drop p_len).sum, (pg.snd.snd.drop p_len).all id))
      (.ok results, { st1 with max_gen_len := max_gen_len })

/-- Python values as returned by `loglikelihood_rolling`, which appends
`(ll.sum().item(),)` — a one-element tuple — despite the declared return
type `list[float]`. -/
inductive PyVal
  | pyFloat (x : Rat)
  | pyTuple (xs : List PyVal)

/-- `EvalHarnessLM.loglikelihood_rolling`.  A request contributes
`req.args[0]`; the list comprehension works on an empty list, so there is
no unpack error here.  Same save/override/write-back (no `try/finally`)
discipline for `max_gen_len` as in `loglikelihood`. -/
def loglikelihood_rolling (gen : Gen) (st : GenState)
    (requests : List String) : Except PyErr (List PyVal) × GenState :=
  let prompts := requests
  let max_gen_len := st.max_gen_len
  let st1 := { st with max_gen_len := 1 }
  match gen st1 prompts with
  | .error e => (.error e, st1)
  | .ok (_, lls, _) =>
    (.ok (lls.map (fun ll => PyVal.pyTuple [PyVal.pyFloat ll.sum])),
      { st1 with max_gen_len := max_gen_len })

end EvalHarnessLM

/-! ## `eval_ppl_on_path` -/

/-- One model-ready batch as seen by the loss loop of `eval_ppl_on_path`:
the flattened targets `batch.y`, the optional mask, and the summed
cross-entropy `F.cross_entropy(model(x).flatten(0,1), y.flatten(0,1),
reduction="sum").item()` — the model forward pass and the loss kernel are
external collaborators, so the summed loss a batch contributes is data
here. -/
structure PplBatch where
  y : List Nat
  mask : Option (List Bool)
  lossSum : Rat
deriving DecidableEq

/-- `mask.sum().item()` on a boolean mask. -/
def maskSum (m : List Bool) : Nat := (m.filter id).length

/-- The byte count a batch contributes:
`y.numel() if mask is None else mask.sum().item()`. -/
def batchBytes (b : PplBatch) : Nat :=
  match b.mask with
  | none => b.y.length
  | some m => maskSum m

/-- Exceptions raised by `eval_ppl_on_path`. -/
inductive PplErr
  /-- `AssertionError` from `assert len(chunks) == 1` -/
  | assertChunkCount
  /-- `NotImplementedError` from the unsupported-tokenizer branch; the
  payload records the local accumulators `total_loss` and `n_bytes` at the
  moment of the raise, so theorems can state what had been accumulated. -/
  | notImplementedError (total_loss : Rat) (n_bytes : Nat)
deriving DecidableEq

/-- The batch loop of `eval_ppl_on_path`: for each batch, if the tokenizer
family is `bytes` or `blt`, accumulate
`n_bytes += y.numel() if mask is None else mask.sum()` and
`total_loss += loss`; otherwise `raise NotImplementedError()`. -/
def pplLoop (tokName : String) :
    List PplBatch → Rat → Nat → Except PplErr (Rat × Nat)
  | [], total_loss, n_bytes => .ok (total_loss, n_bytes)
  | b :: bs, total_loss, n_bytes =>
    if tokName = "bytes" ∨ tokName = "blt" then
      pplLoop tokName bs (total_loss + b.lossSum) (n_bytes + batchBytes b)
    else
      .error (.notImplementedError total_loss n_bytes)

/-- The dict returned by `eval_ppl_on_path`. -/
structure PplResult where
  n_bytes : Nat
  loss_sum : Rat
  ppl : Rat
deriving DecidableEq

/-- `eval_ppl_on_path`, after the iterator pipeline has been set up: the
`chunks` returned by the external `find_and_sanitize_chunks`, the stream of
batches the packing iterator yields, the tokenizer-family name, and the
external `math.exp` are inputs.  Asserts exactly one chunk, runs the loss
loop, and reports `{n_bytes, loss_sum, ppl}` with
`ppl = exp(total_loss / n_bytes) if n_bytes > 0 else 0.0`. -/
def eval_ppl_on_path (expf : Rat → Rat) (tokName : String)
    (chunks : List String) (batches : List PplBatch) :
    Except PplErr PplResult :=
  if chunks.length = 1 then
    match pplLoop tokName batches 0 0 with
    | .error e => .error e
    | .ok (total_loss, n_bytes) =>
      .ok ⟨n_bytes, total_loss,
        if n_bytes > 0 then expf (total_loss / (n_bytes : Rat)) else 0⟩
  else
    .error .assertChunkCount

/-! ## `eval_on_val` -/

/-- The metrics dict built per validation source (each value is the mean of
the per-document list, then replaced by `dist_mean_dict`'s cross-rank
mean). -/
structure Metrics where
  nll : Rat
  nll_per_token : Rat
  nll_per_char : Rat
  avg_seqlen : Rat
deriving DecidableEq

/-- `sum(l) / len(l)`.  (`Rat` division by zero is `0` where Python would
raise `ZeroDivisionError`; the theorems below only ever divide by nonzero
lengths.) -/
def listMean (l : List Rat) : Rat := l.sum / (l.length : Rat)

/-- The per-source metric computation of `eval_on_val`: per document `i`,
`nll = ll.sum()`, `nll_per_token = nll / len(ll)`,
`nll_per_char = nll / len(texts[i])`, `avg_seqlen = len(ll)`; each metric is
then averaged over documents and finally replaced by
`dist_mean_dict(metrics)` (the external cross-rank mean `distMean`). -/
def srcMetrics (distMean : Metrics → Metrics) (texts : List String)
    (lls : List (List Rat)) : Metrics :=
  let pairs := texts.zip lls
  distMean
    { nll := listMean (pairs.map (fun p => p.snd.sum))
      nll_per_token :=
        listMean (pairs.map (fun p => p.snd.sum / (p.snd.length : Rat)))
      nll_per_char :=
        listMean (pairs.map (fun p => p.snd.sum / (p.fst.length : Rat)))
      avg_seqlen := listMean (pairs.map (fun p => (p.snd.length : Rat))) }

/-- Python dict membership `k in d` for an insertion-ordered dict. -/
def dictContains {α : Type} (d : List (String × α)) (k : String) : Bool :=
  d.any (fun p => p.fst == k)

/-- Python dict assignment `d[k] = v`: overwrite in place if the key
exists, else append. -/
def dictInsert {α : Type} (d : List (String × α)) (k : String) (v : α) :
    List (String × α) :=
  if dictContains d k then
    d.map (fun p => if p.fst == k then (k, v) else p)
  else
    d ++ [(k, v)]

/-- `os.path.join(root, src)` for the relative source names used here. -/
def joinPath (a b : String) : String := a ++ "/" ++ b

/-- The characters after the last `/` (accumulator holds the current
segment reversed). -/
def basenameChars : List Char → List Char → List Char
  | [], acc => acc.reverse
  | c :: cs, acc =>
    if c = '/' then basenameChars cs [] else basenameChars cs (c :: acc)

/-- `os.path.basename`: the part after the last `/`. -/
def basename (s : String) : String := ⟨basenameChars s.data []⟩

/-- `ValidationArgs`: root directory plus relative source names. -/
structure ValidationArgs where
  root_dir : String
  sources : List String

/-- The fields of `train_cfg.data` that `eval_on_val` reads. -/
structure DataArgs where
  root_dir : String
  sources : List String

/-- The `srcs` list built at the top of `eval_on_val`: validation sources
then training data sources, each joined onto its root dir. -/
def srcPaths (val_args : ValidationArgs) (data : DataArgs) : List String :=
  val_args.sources.map (joinPath val_args.root_dir) ++
    data.sources.map (joinPath data.root_dir)

/-- The first loop of `eval_on_val`, building the `path_to_iter` dict: for
each path, the external `find_and_sanitize_chunks` (`resolve`) must return
exactly one chunk (`assert len(chunks) == 1`), and the dict maps the path to
(an iterator over) that chunk.  Duplicate paths overwrite, as in a Python
dict. -/
def resolveAll (resolve : String → List String) :
    List String → List (String × String) →
    Except PyErr (List (String × String))
  | [], acc => .ok acc
  | p :: ps, acc =>
    match resolve p with
    | [c] => resolveAll resolve ps (dictInsert acc p c)
    | _ => .error .assertChunkCount

/-- The second loop of `eval_on_val`: for each `src` in `path_to_iter`
(insertion order), collect the documents of its chunk (`textsOf`, the
external Arrow iterator), run `generator.generate(texts)`, compute the
metrics, and store them in `all_val_metrics` under `basename(src)` — or
under `basename(src) + "_1"` when that name is already taken. -/
def valLoop (gen : Gen) (textsOf : String → List String)
    (distMean : Metrics → Metrics) (st1 : GenState) :
    List (String × String) → List (String × Metrics) →
    Except PyErr (List (String × Metrics))
  | [], acc => .ok acc
  | (src, chunk) :: rest, acc =>
    let texts := textsOf chunk
    match gen st1 texts with
    | .error e => .error e
    | .ok (_, lls, _) =>
      let metrics := srcMetrics distMean texts lls
      let name := basename src
      let name1 := if dictContains acc name then name ++ "_1" else name
      valLoop gen textsOf distMean st1 rest (dictInsert acc name1 metrics)

/-- `eval_on_val`.  External collaborators: `resolve` is
`find_and_sanitize_chunks`, `textsOf` reads the documents of a chunk,
`gen` is `generator.generate`, `distMean` is `dist_mean_dict`.  The
generator's `max_gen_len` is saved, overridden to `1` and written back by
straight-line code (no `try/finally`), as in the harness adapter. -/
def eval_on_val (gen : Gen) (resolve : String → List String)
    (textsOf : String → List String) (distMean : Metrics → Metrics)
    (val_args : ValidationArgs) (data : DataArgs) (st : GenState) :
    Except PyErr (List (String × Metrics)) × GenState :=
  match resolveAll resolve (srcPaths val_args data) [] with
  | .error e => (.error e, st)
  | .ok path_to_iter =>
    let max_gen_len := st.max_gen_len
    let st1 := { st with max_gen_len := 1 }
    match valLoop gen textsOf distMean st1 path_to_iter [] with
    | .error e => (.error e, st1)
    | .ok all_val_metrics =>
      (.ok all_val_metrics, { st1 with max_gen_len := max_gen_len })

/-! ## `launch_eval` -/

/-- Exceptions raised by `launch_eval`. -/
inductive LaunchErr
  /-- an exception propagating out of `eval_ppl_on_path` -/
  | pplError (e : PplErr)
  /-- `raise NotImplementedException()`: `NotImplementedException` is not a
  defined name, so at runtime this line raises `NameError`; either way the
  line raises unconditionally. -/
  | nameErrorNotImplementedException
deriving DecidableEq

/-- The monad of the embedded driver: exceptions plus a log of the
side-effecting stages reached (model loading, printing, generator and
harness construction, validation, persistence). -/
abbrev LaunchM := EStateM LaunchErr (List String)

/-- Record that a stage of `launch_eval` was reached. -/
def logStep (s : String) : LaunchM Unit := modify (fun l => l ++ [s])

/-- The body of `launch_eval` from the point the model is loaded.  The
checkpoint/filesystem preamble is external; the perplexity path is the
embedded `eval_ppl_on_path` (its external inputs are parameters).  The
`raise NotImplementedException()` line sits unconditionally between the
perplexity path and the harness path; the statements after it are the
source's generator construction, `EvalHarnessLM` construction, `eval_on_val`
call and result persistence, kept here to state that they are unreachable. -/
def launchBody (expf : Rat → Rat) (tokName : String) (chunks : List String)
    (batches : List PplBatch) (validation : Bool) : LaunchM Unit := do
  logStep "load_consolidated_model_and_tokenizer"
  if validation then
    match eval_ppl_on_path expf tokName chunks batches with
    | .error e => throw (.pplError e)
    | .ok _ => logStep "print_val_results"
  throw .nameErrorNotImplementedException
  logStep "construct_PackedCausalTransformerGenerator"
  logStep "construct_EvalHarnessLM"
  if validation then logStep "eval_on_val"
  logStep "persist_results"

/-- `launch_eval`, run from an empty stage log. -/
def launch_eval (expf : Rat → Rat) (tokName : String) (chunks : List String)
    (batches : List PplBatch) (validation : Bool) :
    EStateM.Result LaunchErr (List String) Unit :=
  (launchBody expf tokName chunks batches validation).run []

/-! ## Concrete instantiations used by witnesses and counterexamples -/

/-- A generator whose `generate` always raises. -/
def genFail : Gen := fun _ _ => .error .runtimeError

/-- A generator whose `generate` succeeds, echoing the prompts and
returning fixed per-position log-likelihoods and greedy flags. -/
def genEcho : Gen := fun _ ps =>
  .ok (ps, ps.map (fun _ => [(1 : Rat), 2, 3]),
    ps.map (fun _ => [true, true, false]))

/-- A byte-level tokenizer: one token id per character. -/
def encB : Encode := fun s _ _ => s.data.map Char.toNat

/-- A generator configuration with `max_gen_len = 5`. -/
def st5 : GenState := ⟨5, 0, none, none, []⟩

/-- A generator returning the fixed raw generation `"a\nb\n"`, which
contains the stop string `"\n"` twice. -/
def genRawNewlines : Gen := fun _ _ => .ok (["a\nb\n"], [], [])

/-- Generation arguments carrying the single stop string `"\n"`. -/
def stopNewline : GenDict := { untilStrs := some ["\n"] }

/-- A second generation-argument dict, differing from the default one. -/
def dictT1 : GenDict := { temperature := some 1 }

/-- Two concrete batches for the perplexity loop: one unmasked, one
masked. -/
def pplBatches : List PplBatch :=
  [⟨[0, 0], none, 6⟩, ⟨[0, 0, 0], some [true, false, true], 4⟩]

/-- A chunk resolver mapping the two validation paths used in the
duplicate-basename witness to distinct single chunks. -/
def resW : String → List String :=
  fun p => if p = "r/a/val.jsonl" then ["cA"] else ["cB"]

/-- Document texts per chunk for the duplicate-basename witness. -/
def txtW : String → List String :=
  fun c => if c = "cA" then ["tA"] else ["tB"]

/-- Modelled from the spec (for comparison with the code only): "each stop
string removed at most once per generation if present" — remove the first
occurrence of `e`, if any. -/
def specStripOnceChar (e : List Char) : List Char → List Char
  | [] => []
  | c :: cs =>
    if e.isPrefixOf (c :: cs) && !e.isEmpty then List.drop e.length (c :: cs)
    else c :: specStripOnceChar e cs

/-- Modelled from the spec: strip each stop string at most once, "ordering
among multiple stop strings is the order supplied". -/
def specStripAll (untilStrs : List String) (g : String) : String :=
  untilStrs.foldl (fun g e => ⟨specStripOnceChar e.data g.data⟩) g

/-! ## Helper lemmas -/

/-- Dropping all occurrences of a single-character pattern is a filter. -/
theorem pyDropAll_singleton (a : Char) :
    ∀ l : List Char, pyDropAll [a] l = l.filter (fun c => !(c == a)) := by
  intro l
  induction l with
  | nil => simp [pyDropAll]
  | cons c cs ih =>
    by_cases h : a = c
    · subst h
      simp [pyDropAll, List.isPrefixOf, ih]
    · simp [pyDropAll, List.isPrefixOf, ih, h, Ne.symm h, List.filter_cons]

/-- The inner strip loop is a left fold of `replace`-by-empty. -/
theorem stripLoop_eq_foldl (u : List String) (g : String) :
    stripLoop u g = u.foldl pyRemoveAll g := by
  induction u generalizing g with
  | nil => simp [stripLoop]
  | cons e rest ih => simp [stripLoop, ih]

/-- The outer loop of `generate_until` maps the strip loop over the raw
generations. -/
theorem filterGens_eq_map (u : List String) (gs : List String) :
    filterGens u gs = gs.map (stripLoop u) := by
  induction gs with
  | nil => simp [filterGens]
  | cons g gs ih => simp [filterGens, ih]

/-- With a supported tokenizer family the loss loop never raises and
accumulates the summed loss and the per-batch byte counts. -/
theorem pplLoop_supported (tokName : String)
    (h : tokName = "bytes" ∨ tokName = "blt") (batches : List PplBatch) :
    ∀ t n, pplLoop tokName batches t n =
      .ok (t + (batches.map PplBatch.lossSum).sum,
        n + (batches.map batchBytes).sum) := by
  induction batches with
  | nil => intro t n; simp [pplLoop]
  | cons b bs ih =>
    intro t n
    simp [pplLoop, h, ih, batchBytes, add_assoc]

/-- If any source path resolves to a chunk list that is not a singleton,
the `path_to_iter` loop raises the chunk-count assertion. -/
theorem resolveAll_err (resolve : String → List String) :
    ∀ (ps : List String) (acc : List (String × String)),
      (∃ p ∈ ps, (resolve p).length ≠ 1) →
      resolveAll resolve ps acc = .error .assertChunkCount := by
  intro ps
  induction ps with
  | nil => rintro acc ⟨p, hp, -⟩; cases hp
  | cons p ps ih =>
    rintro acc ⟨q, hq, hbad⟩
    match hr : resolve p with
    | [] => simp [resolveAll, hr]
    | [c] =>
      rcases List.mem_cons.mp hq with rfl | hq2
      · rw [hr] at hbad; simp at hbad
      · simp only [resolveAll, hr]
        exact ih _ ⟨q, hq2, hbad⟩
    | c :: d :: t => simp [resolveAll, hr]

/-- Case analysis of `loglikelihood` on a non-empty request list. -/
theorem loglikelihood_eq (gen : Gen) (encode : Encode) (st : GenState)
    (r : String × String) (rs : List (String × String)) :
    EvalHarnessLM.loglikelihood gen encode st (r :: rs) =
      match gen { st with max_gen_len := 1 }
          ((r :: rs).map fun q => q.fst ++ q.snd) with
      | .error e => (.error e, { st with max_gen_len := 1 })
      | .ok (_, lls, greedy) =>
        (.ok ((((r :: rs).map Prod.fst).zip (lls.zip greedy)).map fun pg =>
          ((pg.snd.fst.drop (encode pg.fst false false).length).sum,
            (pg.snd.snd.drop (encode pg.fst false false).length).all id)),
          st) := by
  cases hg : gen { st with max_gen_len := 1 }
      ((r :: rs).map fun q => q.fst ++ q.snd) with
  | error e => simp only [EvalHarnessLM.loglikelihood, hg]
  | ok v =>
    obtain ⟨gens, lls, greedy⟩ := v
    simp only [EvalHarnessLM.loglikelihood, hg]

/-- Case analysis of `loglikelihood_rolling`. -/
theorem loglikelihood_rolling_eq (gen : Gen) (st : GenState)
    (reqs : List String) :
    EvalHarnessLM.loglikelihood_rolling gen st reqs =
      match gen { st with max_gen_len := 1 } reqs with
      | .error e => (.error e, { st with max_gen_len := 1 })
      | .ok (_, lls, _) =>
        (.ok (lls.map fun ll =>
          EvalHarnessLM.PyVal.pyTuple [EvalHarnessLM.PyVal.pyFloat ll.sum]),
          st) := by
  cases hg : gen { st with max_gen_len := 1 } reqs with
  | error e => simp only [EvalHarnessLM.loglikelihood_rolling, hg]
  | ok v =>
    obtain ⟨gens, lls, greedy⟩ := v
    simp only [EvalHarnessLM.loglikelihood_rolling, hg]

/-- Case analysis of `generate_until` when the generation-argument dicts
all agree. -/
theorem generate_until_eq_of_same (gen : Gen) (st : GenState)
    (r : String × GenDict) (rs : List (String × GenDict))
    (hsame : all_dicts_same ((r :: rs).map Prod.snd) = true) :
    EvalHarnessLM.generate_until gen st (r :: rs) =
      match gen (sharedState st r.snd) ((r :: rs).map Prod.fst) with
      | .error e =>
        ⟨.error e, sharedState st r.snd,
          [(sharedState st r.snd, (r :: rs).map Prod.fst)]⟩
      | .ok (gens, _, _) =>
        ⟨.ok (filterGens (r.snd.untilStrs.getD []) gens), sharedState st r.snd,
          [(sharedState st r.snd, (r :: rs).map Prod.fst)]⟩ := by
  cases hg : gen (sharedState st r.snd) ((r :: rs).map Prod.fst) with
  | error e => simp only [EvalHarnessLM.generate_until, hsame, if_true, hg]
  | ok v =>
    obtain ⟨gens, lls, greedy⟩ := v
    simp only [EvalHarnessLM.generate_until, hsame, if_true, hg]

/-! ## Claims -/

/-- **C1, counterexample.**  The claim says `max_gen_len` equals its
pre-call value after every call, "whether the underlying generator.generate
call returns normally or raises".  With a generator whose `generate`
raises, a `loglikelihood` call that started from `max_gen_len = 5` ends
with `max_gen_len = 1`: the restore is skipped on the raising path. -/
theorem loglikelihood_failure_leaves_override :
    st5.max_gen_len = 5 ∧
    (EvalHarnessLM.loglikelihood genFail encB st5 [("a", "b")]).2.max_gen_len
      = 1 ∧
    (1 : Nat) ≠ 5 :=
  ⟨rfl, rfl, by decide⟩

/-- **C1, amended.**  `loglikelihood` and `loglikelihood_rolling` restore
the generator's `max_gen_len` by straight-line code after the `generate`
call, not by a guaranteed-execution scope: after a call whose `generate`
returns normally the whole configuration equals its pre-call value, but
when `generate` raises the exception propagates with `max_gen_len` still
holding the temporary override `1`. -/
theorem max_gen_len_restore_discipline (gen : Gen) (encode : Encode)
    (st : GenState) (reqs : List (String × String)) (rolls : List String) :
    (∀ out, (EvalHarnessLM.loglikelihood gen encode st reqs).1 = .ok out →
      (EvalHarnessLM.loglikelihood gen encode st reqs).2 = st) ∧
    (∀ e, reqs ≠ [] →
      (EvalHarnessLM.loglikelihood gen encode st reqs).1 = .error e →
      (EvalHarnessLM.loglikelihood gen encode st reqs).2.max_gen_len = 1) ∧
    (∀ out, (EvalHarnessLM.loglikelihood_rolling gen st rolls).1 = .ok out →
      (EvalHarnessLM.loglikelihood_rolling gen st rolls).2 = st) ∧
    (∀ e, (EvalHarnessLM.loglikelihood_rolling gen st rolls).1 = .error e →
      (EvalHarnessLM.loglikelihood_rolling gen st rolls).2.max_gen_len = 1) := by
  refine ⟨?_, ?_, ?_, ?_⟩
  · intro out h
    cases reqs with
    | nil => simp [EvalHarnessLM.loglikelihood] at h
    | cons r rs =>
      rw [loglikelihood_eq] at h ⊢
      cases hg : gen { st with max_gen_len := 1 }
          ((r :: rs).map fun q => q.fst ++ q.snd) with
      | error e => rw [hg] at h; simp at h
      | ok v => obtain ⟨gens, lls, greedy⟩ := v; rfl
  · intro e hne h
    cases reqs with
    | nil => exact absurd rfl hne
    | cons r rs =>
      rw [loglikelihood_eq] at h ⊢
      cases hg : gen { st with max_gen_len := 1 }
          ((r :: rs).map fun q => q.fst ++ q.snd) with
      | error e2 => rfl
      | ok v => obtain ⟨gens, lls, greedy⟩ := v; rw [hg] at h; simp at h
  · intro out h
    rw [loglikelihood_rolling_eq] at h ⊢
    cases hg : gen { st with max_gen_len := 1 } rolls with
    | error e => rw [hg] at h; simp at h
    | ok v => obtain ⟨gens, lls, greedy⟩ := v; rfl
  · intro e h
    rw [loglikelihood_rolling_eq] at h ⊢
    cases hg : gen { st with max_gen_len := 1 } rolls with
    | error e2 => rfl
    | ok v => obtain ⟨gens, lls, greedy⟩ := v; rw [hg] at h; simp at h

/-- **C2, counterexample.**  The claim says each stop string is removed
from the output "at most once per generation if present".  With the raw
generation `"a\nb\n"` and the single stop string `"\n"`, `generate_until`
returns `"ab"`: both occurrences are deleted, which differs from the
spec-modelled at-most-once stripping (`"ab\n"`). -/
theorem generate_until_strip_once_refuted :
    (EvalHarnessLM.generate_until genRawNewlines st5
        [("p", stopNewline)]).result = .ok ["ab"] ∧
    specStripAll ["\n"] "a\nb\n" = "ab\n" ∧
    ("ab" : String) ≠ "ab\n" := by
  have hstrip : pyRemoveAll "a\nb\n" "\n" = "ab" := by
    show (⟨pyDropAll "\n".data "a\nb\n".data⟩ : String) = "ab"
    rw [show "\n".data = ['\n'] from rfl, pyDropAll_singleton]
    rfl
  refine ⟨?_, rfl, by decide⟩
  rw [generate_until_eq_of_same _ _ _ _ (by decide)]
  show Except.ok (filterGens ["\n"] ["a\nb\n"]) = Except.ok ["ab"]
  rw [show filterGens ["\n"] ["a\nb\n"] = [pyRemoveAll "a\nb\n" "\n"] from
    rfl, hstrip]

/-- **C2, amended.**  Each stop string is stripped with Python `replace`
semantics: a single left-to-right pass deleting every non-overlapping
occurrence (not at most one), the stop strings applied successively in the
order supplied, and one trimmed string per request in request order. -/
theorem generate_until_strips_all_occurrences (gen : Gen) (st : GenState)
    (r : String × GenDict) (rs : List (String × GenDict))
    (gens : List String) (lls : List (List Rat)) (bs : List (List Bool))
    (hsame : all_dicts_same ((r :: rs).map Prod.snd) = true)
    (hgen : gen (sharedState st r.snd) ((r :: rs).map Prod.fst) =
      .ok (gens, lls, bs)) :
    (EvalHarnessLM.generate_until gen st (r :: rs)).result =
      .ok (gens.map fun g => (r.snd.untilStrs.getD []).foldl pyRemoveAll g)
    := by
  rw [generate_until_eq_of_same gen st r rs hsame, hgen]
  simp [filterGens_eq_map, stripLoop_eq_foldl]

/-- **C2, witness** for the amended theorem, on the raw generation
`"a\nb\n"` with stop string `"\n"`. -/
theorem generate_until_strips_all_occurrences_witness :
    (EvalHarnessLM.generate_until genRawNewlines st5
        [("p", stopNewline)]).result =
      .ok (["a\nb\n"].map fun g =>
        (stopNewline.untilStrs.getD []).foldl pyRemoveAll g) :=
  generate_until_strips_all_occurrences genRawNewlines st5
    ("p", stopNewline) [] ["a\nb\n"] [] [] (by decide) rfl

/-- **C4.**  `generate_until` with generation-argument dicts that are not
all identical fails with the assertion before `generator.generate` ever
runs (the invocation log is empty); with identical dicts the shared
parameters are copied onto the generator and batched generation is invoked
exactly once, on all prompts. -/
theorem generate_until_param_precondition (gen : Gen) (st : GenState)
    (r : String × GenDict) (rs : List (String × GenDict)) :
    (all_dicts_same ((r :: rs).map Prod.snd) = false →
      (EvalHarnessLM.generate_until gen st (r :: rs)).result =
        .error .assertDifferentGenArgs ∧
      (EvalHarnessLM.generate_until gen st (r :: rs)).calls = []) ∧
    (all_dicts_same ((r :: rs).map Prod.snd) = true →
      (EvalHarnessLM.generate_until gen st (r :: rs)).state =
        sharedState st r.snd ∧
      (EvalHarnessLM.generate_until gen st (r :: rs)).calls =
        [(sharedState st r.snd, (r :: rs).map Prod.fst)]) := by
  constructor
  · intro h
    rw [List.map_cons] at h
    constructor <;> simp [EvalHarnessLM.generate_until, h]
  · intro h
    rw [generate_until_eq_of_same gen st r rs h]
    cases hg : gen (sharedState st r.snd) ((r :: rs).map Prod.fst) with
    | error e => exact ⟨rfl, rfl⟩
    | ok v => obtain ⟨a, b, c⟩ := v; exact ⟨rfl, rfl⟩

/-- **C4, witness**: a heterogeneous batch fails with the assertion and no
generation; a homogeneous batch has its parameters copied onto the
generator and generation invoked once. -/
theorem generate_until_param_precondition_witness :
    ((EvalHarnessLM.generate_until genEcho st5
        [("p", dictT1), ("q", {})]).result = .error .assertDifferentGenArgs ∧
      (EvalHarnessLM.generate_until genEcho st5
        [("p", dictT1), ("q", {})]).calls = []) ∧
    ((EvalHarnessLM.generate_until genEcho st5
        [("p", stopNewline)]).state = sharedState st5 stopNewline ∧
      (EvalHarnessLM.generate_until genEcho st5
        [("p", stopNewline)]).calls =
        [(sharedState st5 stopNewline, ["p"])]) :=
  ⟨(generate_until_param_precondition genEcho st5 ("p", dictT1)
      [("q", {})]).1 (by decide),
    (generate_until_param_precondition genEcho st5 ("p", stopNewline)
      []).2 (by decide)⟩

/-- **C5.**  On every request `(context, continuation)`, `loglikelihood`
runs the generator on the concatenations `context ++ continuation` and
returns, in request order, the sum of the per-position log-likelihoods
from the tokenized-context length onward paired with whether every one of
those positions was the greedy choice, the split index being the length of
`tokenizer.encode(context, add_bos=False, add_eos=False)`. -/
theorem loglikelihood_tokenized_context_split (gen : Gen) (encode : Encode)
    (st : GenState) (r : String × String) (rs : List (String × String))
    (gens : List String) (lls : List (List Rat)) (greedy : List (List Bool))
    (hgen : gen { st with max_gen_len := 1 }
      ((r :: rs).map fun q => q.fst ++ q.snd) = .ok (gens, lls, greedy)) :
    ∃ out, (EvalHarnessLM.loglikelihood gen encode st (r :: rs)).1 =
        .ok out ∧
      out.length = min (r :: rs).length (min lls.length greedy.length) ∧
      ∀ (i : Nat) (p : String × String) (ll : List Rat) (gr : List Bool),
        (r :: rs)[i]? = some p → lls[i]? = some ll → greedy[i]? = some gr →
        out[i]? = some ((ll.drop (encode p.fst false false).length).sum,
          (gr.drop (encode p.fst false false).length).all id) := by
  rw [loglikelihood_eq, hgen]
  refine ⟨_, rfl, ?_, ?_⟩
  · simp [List.length_zip]
  · intro i p ll gr h1 h2 h3
    simp only [List.getElem?_map, List.zip, List.getElem?_zipWith', h1, h2,
      h3, Option.map_some', Option.some_bind]

/-- **C5, witness** at a single concrete request. -/
theorem loglikelihood_tokenized_context_split_witness :
    ∃ out, (EvalHarnessLM.loglikelihood genEcho encB st5 [("ab", "c")]).1 =
        .ok out ∧
      out.length = min [("ab", "c")].length
        (min [[(1 : Rat), 2, 3]].length [[true, true, false]].length) ∧
      ∀ (i : Nat) (p : String × String) (ll : List Rat) (gr : List Bool),
        [("ab", "c")][i]? = some p → [[(1 : Rat), 2, 3]][i]? = some ll →
        [[true, true, false]][i]? = some gr →
        out[i]? = some ((ll.drop (encB p.fst false false).length).sum,
          (gr.drop (encB p.fst false false).length).all id) :=
  loglikelihood_tokenized_context_split genEcho encB st5 ("ab", "c") []
    ["abc"] [[(1 : Rat), 2, 3]] [[true, true, false]] rfl

/-- **C1, witness** for the amended theorem: with a succeeding generator
the configuration is restored (to the whole pre-call value `st5`), and
with a failing generator `max_gen_len` is left at `1`. -/
theorem max_gen_len_restore_discipline_witness :
    (EvalHarnessLM.loglikelihood genEcho encB st5 [("a", "b")]).2 = st5 ∧
    (EvalHarnessLM.loglikelihood_rolling genFail st5 ["a"]).2.max_gen_len
      = 1 :=
  ⟨(max_gen_len_restore_discipline genEcho encB st5 [("a", "b")] ["a"]).1
      _ rfl,
    (max_gen_len_restore_discipline genFail encB st5 [("a", "b")]
      ["a"]).2.2.2 _ rfl⟩

/-- **C10.**  On a non-empty request list where the generator succeeds,
`loglikelihood_rolling` returns, in request order, one-element tuples
holding the summed whole-sequence log-likelihood — tuples, never the bare
floats its declared return type `list[float]` announces. -/
theorem loglikelihood_rolling_returns_singleton_tuples (gen : Gen)
    (st : GenState) (reqs : List String) (gens : List String)
    (lls : List (List Rat)) (bs : List (List Bool)) (hne : reqs ≠ [])
    (hgen : gen { st with max_gen_len := 1 } reqs = .ok (gens, lls, bs)) :
    (EvalHarnessLM.loglikelihood_rolling gen st reqs).1 =
      .ok (lls.map fun ll =>
        EvalHarnessLM.PyVal.pyTuple [EvalHarnessLM.PyVal.pyFloat ll.sum]) ∧
    ∀ out, (EvalHarnessLM.loglikelihood_rolling gen st reqs).1 = .ok out →
      ∀ v ∈ out, ∀ x, v ≠ EvalHarnessLM.PyVal.pyFloat x := by
  rw [loglikelihood_rolling_eq, hgen]
  refine ⟨rfl, ?_⟩
  intro out hout v hv x
  have hout2 : Except.ok (ε := PyErr) (lls.map fun ll =>
      EvalHarnessLM.PyVal.pyTuple [EvalHarnessLM.PyVal.pyFloat ll.sum]) =
      .ok out := hout
  obtain rfl := Except.ok.inj hout2
  obtain ⟨ll, -, rfl⟩ := List.mem_map.mp hv
  simp

/-- **C10, witness** at a single concrete request. -/
theorem loglikelihood_rolling_returns_singleton_tuples_witness :
    (EvalHarnessLM.loglikelihood_rolling genEcho st5 ["a"]).1 =
      .ok ([[(1 : Rat), 2, 3]].map fun ll =>
        EvalHarnessLM.PyVal.pyTuple [EvalHarnessLM.PyVal.pyFloat ll.sum]) ∧
    ∀ out, (EvalHarnessLM.loglikelihood_rolling genEcho st5 ["a"]).1 =
        .ok out →
      ∀ v ∈ out, ∀ x, v ≠ EvalHarnessLM.PyVal.pyFloat x :=
  loglikelihood_rolling_returns_singleton_tuples genEcho st5 ["a"] ["a"]
    [[(1 : Rat), 2, 3]] [[true, true, false]] (by decide) rfl

/-- **C3.**  With a supported tokenizer family and a single resolved chunk,
`eval_ppl_on_path` returns `{n_bytes, loss_sum, ppl}` where `loss_sum` is
the sum over batches of the summed per-position loss, `n_bytes` sums
`mask.sum()` for masked batches and `y.numel()` otherwise, and
`ppl = exp(loss_sum / n_bytes)` when `n_bytes > 0` and `0.0` when
`n_bytes = 0`. -/
theorem eval_ppl_on_path_report (expf : Rat → Rat) (tokName : String)
    (chunks : List String) (batches : List PplBatch)
    (hname : tokName = "bytes" ∨ tokName = "blt")
    (hchunks : chunks.length = 1) :
    ∃ r, eval_ppl_on_path expf tokName chunks batches = .ok r ∧
      r.loss_sum = (batches.map PplBatch.lossSum).sum ∧
      r.n_bytes = (batches.map batchBytes).sum ∧
      (0 < r.n_bytes → r.ppl = expf (r.loss_sum / (r.n_bytes : Rat))) ∧
      (r.n_bytes = 0 → r.ppl = 0) := by
  have hloop := pplLoop_supported tokName hname batches 0 0
  simp only [zero_add] at hloop
  have hmain : eval_ppl_on_path expf tokName chunks batches =
      .ok ⟨(batches.map batchBytes).sum, (batches.map PplBatch.lossSum).sum,
        if 0 < (batches.map batchBytes).sum then
          expf ((batches.map PplBatch.lossSum).sum /
            ((batches.map batchBytes).sum : Rat))
        else 0⟩ := by
    simp only [eval_ppl_on_path, hchunks]
    rw [if_pos trivial, hloop]
  refine ⟨_, hmain, rfl, rfl, fun h => ?_, fun h => ?_⟩
  · exact if_pos h
  · have h3 : (List.map batchBytes batches).sum = 0 := h
    show (if 0 < (List.map batchBytes batches).sum then
      expf ((List.map PplBatch.lossSum batches).sum /
        ((List.map batchBytes batches).sum : Rat)) else 0) = 0
    rw [h3]
    exact if_neg (lt_irrefl 0)

/-- **C3, witness** on two concrete batches (one masked, one not):
`loss_sum = 10`, `n_bytes = 2 + 2`, `ppl = exp(10/4)`. -/
theorem eval_ppl_on_path_report_witness :
    ∃ r, eval_ppl_on_path id "bytes" ["c"] pplBatches = .ok r ∧
      r.loss_sum = (pplBatches.map PplBatch.lossSum).sum ∧
      r.n_bytes = (pplBatches.map batchBytes).sum ∧
      (0 < r.n_bytes → r.ppl = id (r.loss_sum / (r.n_bytes : Rat))) ∧
      (r.n_bytes = 0 → r.ppl = 0) :=
  eval_ppl_on_path_report id "bytes" ["c"] pplBatches (Or.inl rfl) rfl

/-- **C7.**  Any batch reaching the loss loop under a tokenizer family
other than `bytes`/`blt` raises `NotImplementedError` — and it raises on
the very first batch, so the accumulators recorded at the raise are still
`(0, 0)`: no loss or byte count is ever accumulated. -/
theorem eval_ppl_unsupported_tokenizer (expf : Rat → Rat) (tokName : String)
    (chunks : List String) (b : PplBatch) (bs : List PplBatch)
    (h1 : tokName ≠ "bytes") (h2 : tokName ≠ "blt")
    (hchunks : chunks.length = 1) :
    eval_ppl_on_path expf tokName chunks (b :: bs) =
      .error (.notImplementedError 0 0) := by
  simp only [eval_ppl_on_path, hchunks]
  rw [if_pos trivial]
  simp [pplLoop, h1, h2]

/-- **C7, witness** with the sentencepiece-style family name `"sp"`. -/
theorem eval_ppl_unsupported_tokenizer_witness :
    eval_ppl_on_path id "sp" ["c"] [⟨[], none, 0⟩] =
      .error (.notImplementedError 0 0) :=
  eval_ppl_unsupported_tokenizer id "sp" ["c"] ⟨[], none, 0⟩ []
    (by decide) (by decide) rfl

/-- **C6.**  Chunk resolution must yield exactly one chunk per validation
source: a chunk list that is not a singleton makes `eval_ppl_on_path` fail
with the chunk-count assertion (the spec's `ConfigurationError`), and any
source path resolving to a non-singleton chunk list makes `eval_on_val`
fail the same way, before any generation. -/
theorem chunk_resolution_requires_exactly_one :
    (∀ (expf : Rat → Rat) (tokName : String) (chunks : List String)
        (batches : List PplBatch), chunks.length ≠ 1 →
      eval_ppl_on_path expf tokName chunks batches =
        .error .assertChunkCount) ∧
    (∀ (gen : Gen) (resolve : String → List String)
        (textsOf : String → List String) (distMean : Metrics → Metrics)
        (va : ValidationArgs) (da : DataArgs) (st : GenState),
      (∃ p ∈ srcPaths va da, (resolve p).length ≠ 1) →
      eval_on_val gen resolve textsOf distMean va da st =
        (.error .assertChunkCount, st)) := by
  constructor
  · intro expf tokName chunks batches h
    simp [eval_ppl_on_path, h]
  · intro gen resolve textsOf distMean va da st h
    simp only [eval_on_val, resolveAll_err resolve (srcPaths va da) [] h]

/-- **C6, witness**: an empty chunk list for the perplexity path, and a
source resolving to zero chunks for the validation path. -/
theorem chunk_resolution_requires_exactly_one_witness :
    eval_ppl_on_path id "bytes" [] [] = .error .assertChunkCount ∧
    eval_on_val genEcho (fun _ => []) (fun _ => []) id ⟨"r", ["s"]⟩
      ⟨"d", []⟩ st5 = (.error .assertChunkCount, st5) :=
  ⟨chunk_resolution_requires_exactly_one.1 id "bytes" [] [] (by decide),
    chunk_resolution_requires_exactly_one.2 genEcho (fun _ => [])
      (fun _ => []) id ⟨"r", ["s"]⟩ ⟨"d", []⟩ st5
      ⟨"r/s", by decide, by decide⟩⟩

/-- **C8.**  When two validation sources at different paths share a
basename, `eval_on_val` stores the first source's metrics under the bare
basename and the second source's metrics under the basename suffixed with
`_1`, so neither set of metrics is lost. -/
theorem eval_on_val_duplicate_basename (gen : Gen)
    (resolve : String → List String) (textsOf : String → List String)
    (distMean : Metrics → Metrics) (root droot s1 s2 : String)
    (st : GenState) (c1 c2 : String) (g1 g2 : List String)
    (lls1 lls2 : List (List Rat)) (b1 b2 : List (List Bool))
    (hdiff : joinPath root s1 ≠ joinPath root s2)
    (hbase : basename (joinPath root s2) = basename (joinPath root s1))
    (hres1 : resolve (joinPath root s1) = [c1])
    (hres2 : resolve (joinPath root s2) = [c2])
    (hg1 : gen { st with max_gen_len := 1 } (textsOf c1) = .ok (g1, lls1, b1))
    (hg2 : gen { st with max_gen_len := 1 } (textsOf c2) =
      .ok (g2, lls2, b2)) :
    eval_on_val gen resolve textsOf distMean ⟨root, [s1, s2]⟩ ⟨droot, []⟩ st =
      (.ok [(basename (joinPath root s1),
              srcMetrics distMean (textsOf c1) lls1),
            (basename (joinPath root s1) ++ "_1",
              srcMetrics distMean (textsOf c2) lls2)],
        st) := by
  have hbeq : (joinPath root s1 == joinPath root s2) = false :=
    beq_eq_false_iff_ne.mpr hdiff
  have hsrc : srcPaths ⟨root, [s1, s2]⟩ ⟨droot, []⟩ =
      [joinPath root s1, joinPath root s2] := by
    simp [srcPaths]
  have hres : resolveAll resolve (srcPaths ⟨root, [s1, s2]⟩ ⟨droot, []⟩) [] =
      .ok [(joinPath root s1, c1), (joinPath root s2, c2)] := by
    rw [hsrc]
    simp [resolveAll, hres1, hres2, dictInsert, dictContains, hbeq]
  have hnameNe : basename (joinPath root s1) ≠
      basename (joinPath root s1) ++ "_1" := by
    intro hcontra
    have hlen := congrArg String.length hcontra
    rw [String.length_append] at hlen
    have h2 : ("_1" : String).length = 2 := rfl
    rw [h2] at hlen
    omega
  have e1 : (basename (joinPath root s1) == basename (joinPath root s1))
      = true := beq_self_eq_true _
  have e2 : (basename (joinPath root s1) ==
      basename (joinPath root s1) ++ "_1") = false :=
    beq_eq_false_iff_ne.mpr hnameNe
  have hval : valLoop gen textsOf distMean { st with max_gen_len := 1 }
      [(joinPath root s1, c1), (joinPath root s2, c2)] [] =
      .ok [(basename (joinPath root s1),
             srcMetrics distMean (textsOf c1) lls1),
           (basename (joinPath root s1) ++ "_1",
             srcMetrics distMean (textsOf c2) lls2)] := by
    simp only [valLoop, hg1, hg2, hbase]
    simp [dictContains, dictInsert, e1, e2]
  simp only [eval_on_val, hres, hval]

/-- **C8, witness**: two sources `a/val.jsonl` and `b/val.jsonl` under the
same root, both with basename `val.jsonl`. -/
theorem eval_on_val_duplicate_basename_witness :
    eval_on_val genEcho resW txtW id
      ⟨"r", ["a/val.jsonl", "b/val.jsonl"]⟩ ⟨"d", []⟩ st5 =
      (.ok [(basename (joinPath "r" "a/val.jsonl"),
              srcMetrics id (txtW "cA") [[(1 : Rat), 2, 3]]),
            (basename (joinPath "r" "a/val.jsonl") ++ "_1",
              srcMetrics id (txtW "cB") [[(1 : Rat), 2, 3]])],
        st5) :=
  eval_on_val_duplicate_basename genEcho resW txtW id "r" "d"
    "a/val.jsonl" "b/val.jsonl" st5 "cA" "cB" ["tA"] ["tB"]
    [[(1 : Rat), 2, 3]] [[(1 : Rat), 2, 3]] [[true, true, false]]
    [[true, true, false]] (by decide) (by decide) (by decide) (by decide)
    rfl rfl

/-- **C9.**  `launch_eval` raises on every input — either the perplexity
path's own exception or the unconditional
`raise NotImplementedException()` that follows it — so the stage log never
contains the generator construction, the `EvalHarnessLM` construction, the
`eval_on_val` call after the harness, or result persistence. -/
theorem launch_eval_hard_abort (expf : Rat → Rat) (tokName : String)
    (chunks : List String) (batches : List PplBatch) (validation : Bool) :
    ∃ e log, launch_eval expf tokName chunks batches validation =
        .error e log ∧
      "construct_PackedCausalTransformerGenerator" ∉ log ∧
      "construct_EvalHarnessLM" ∉ log ∧
      "eval_on_val" ∉ log ∧
      "persist_results" ∉ log := by
  cases validation with
  | false =>
    exact ⟨.nameErrorNotImplementedException,
      ["load_consolidated_model_and_tokenizer"], rfl, by decide, by decide,
      by decide, by decide⟩
  | true =>
    cases h : eval_ppl_on_path expf tokName chunks batches with
    | error e =>
      refine ⟨.pplError e, ["load_consolidated_model_and_tokenizer"], ?_,
        by decide, by decide, by decide, by decide⟩
      simp only [launch_eval, launchBody, logStep, h]
      rfl
    | ok r =>
      refine ⟨.nameErrorNotImplementedException,
        ["load_consolidated_model_and_tokenizer", "print_val_results"], ?_,
        by decide, by decide, by decide, by decide⟩
      simp only [launch_eval, launchBody, logStep, h]
      rfl

end BLT
